import Mathlib

/-! Verification of the color_vision_simulation_viewer core (src/main.py).

A shallow embedding, in Lean 4, of the algorithmic core of `src/main.py`:
the colorimetric transform (`simulate_deficiency`, `convert_image`), the
filename sanitizer (`sanitize_filename`), the scale clamp (`clamp_scale`),
the per-page scale resolution (the `adj_scale` computation), the
total-step pre-pass, the batch admission truncation, and the per-page
archive/progress event sequence of the main loop.

Conventions of the embedding:

* Machine bytes are `ℕ` (a pixel is a triple of bytes); Python floats are
  modelled by exact rationals `ℚ`.  The two transcendental operations the
  source performs on floats (`x ** 2.4` and `x ** (1 / 2.4)` inside the
  gamma conversions) have no exact rational counterpart, so they are
  abstracted as a `GammaKernel` parameter; every theorem below is proved
  for an arbitrary kernel, i.e. none of the verified facts depends on the
  numeric power function.
* `numpy`'s `.astype(np.uint8)` truncates toward zero; on the nonnegative
  values produced here this is `Nat.floor`.
* Python strings are Lean `String`s (`List Char` underneath); the run is
  assumed to execute on a POSIX host, so `os.path.basename` splits on `'/'`.
* The Streamlit side effects of the main loop (archive writes, progress
  increments, warnings) are recorded as an explicit list of `Event`s, and
  `st.stop()` is modelled by the `BatchResult.empty` outcome.
-/

/-! ## Configuration constants (src/main.py lines 23-30) -/

/-- Constant `MAX_FILES = 200` (src/main.py line 23). -/
def MAX_FILES : ℕ := 200

/-- Constant `MAX_PAGES_PER_FILE = 200` (src/main.py line 24). -/
def MAX_PAGES_PER_FILE : ℕ := 200

/-- Constant `MAX_PIXELS_PER_PAGE = 1000_000_000` (src/main.py line 25). -/
def MAX_PIXELS_PER_PAGE : ℤ := 1000000000

/-- Constant `MIN_SCALE = 0.1` (src/main.py line 29). -/
def MIN_SCALE : ℚ := 0.1

/-- Constant `MAX_SCALE = 1.0` (src/main.py line 30). -/
def MAX_SCALE : ℚ := 1.0

/-! ## sanitize_filename (src/main.py lines 100-106) -/

/-- A character of the class `[A-Za-z0-9._-]` of the regular expression in
`re.sub(r"[^A-Za-z0-9._-]+", "_", base)` (src/main.py line 103). -/
def isAllowedChar (c : Char) : Bool :=
  (decide ('A' ≤ c) && decide (c ≤ 'Z')) ||
  (decide ('a' ≤ c) && decide (c ≤ 'z')) ||
  (decide ('0' ≤ c) && decide (c ≤ '9')) ||
  c == '.' || c == '_' || c == '-'

/-- Function `os.path.basename` on a POSIX host: the characters after the last `'/'`
(src/main.py line 102). -/
def basename (l : List Char) : List Char :=
  (l.reverse.takeWhile (fun c => c ≠ '/')).reverse

/-- Worker for `re.sub(r"[^A-Za-z0-9._-]+", "_", base)`: each maximal run of
characters outside the class is replaced by a single `'_'`.  The boolean flag
records whether the previous character was part of such a run. -/
def subAux : Bool → List Char → List Char
  | _, [] => []
  | inRun, c :: cs =>
    if isAllowedChar c then c :: subAux false cs
    else if inRun then subAux true cs
    else '_' :: subAux true cs

/-- The substitution `re.sub(r"[^A-Za-z0-9._-]+", "_", base)` (src/main.py line 103). -/
def subDisallowed (l : List Char) : List Char := subAux false l

/-- The test `base.lower().endswith(".pdf")` (src/main.py line 104): the last four
characters, lower-cased, are `.pdf`.  At its call site the string has already
passed through `subDisallowed`, so it is ASCII and `Char.toLower` agrees with
Python's `str.lower`. -/
def lowerEndsWithPdf (l : List Char) : Bool :=
  match l.reverse with
  | f :: d :: p :: dot :: _ =>
    f.toLower == 'f' && d.toLower == 'd' && p.toLower == 'p' && dot.toLower == '.'
  | _ => false

/-- Function `sanitize_filename` (src/main.py lines 100-106):
`base = os.path.basename(name or "file")`;
`base = re.sub(r"[^A-Za-z0-9._-]+", "_", base)`;
append `".pdf"` unless `base.lower().endswith(".pdf")`. -/
def sanitize_filename (name : String) : String :=
  let n := if name = "" then "file" else name
  let base := subDisallowed (basename n.data)
  if lowerEndsWithPdf base then ⟨base⟩ else ⟨base ++ ['.', 'p', 'd', 'f']⟩

/-- The spec's pattern `^[A-Za-z0-9._-]+\.pdf$` (case-sensitive): a nonempty
all-allowed stem followed by the literal suffix `.pdf`.  Because every
character of `.pdf` is itself in the class, a string matches the regular
expression iff it has length at least 5, its last four characters are exactly
`.pdf`, and the rest are in the class. -/
def matchesSanitizedPat (s : String) : Bool :=
  let l := s.data
  decide (5 ≤ l.length) &&
  (l.take (l.length - 4)).all isAllowedChar &&
  decide (l.drop (l.length - 4) = ['.', 'p', 'd', 'f'])

/-! ## clamp_scale (src/main.py lines 108-113) -/

/-- Function `clamp_scale` (src/main.py lines 108-113).  The argument is `some x` when
`float(x)` succeeds with value `x`, and `none` when the conversion raises (the
`except` branch returns `1.0`). -/
def clamp_scale : Option ℚ → ℚ
  | none => 1
  | some x => max MIN_SCALE (min MAX_SCALE x)

/-! ## Per-page scale resolution (src/main.py lines 220-228) -/

/-- Python `int()` on a float: truncation toward zero. -/
def pyInt (q : ℚ) : ℤ := if 0 ≤ q then ⌊q⌋ else ⌈q⌉

/-- Estimate `est_w = max(1, int(rect.width * scale))` (src/main.py line 221), likewise
for the height. -/
def estDim (d scale : ℚ) : ℤ := max 1 (pyInt (d * scale))

/-- The `adj_scale` computation (src/main.py lines 220-228).  `sqrtApprox`
stands for the floating-point `(...) ** 0.5`; the clamp on line 226 makes the
bounds below hold for every value it could return, so all theorems are proved
for an arbitrary `sqrtApprox`. -/
def resolve_scale (sqrtApprox : ℚ → ℚ) (w h scale : ℚ) : ℚ :=
  let est_w := estDim w scale
  let est_h := estDim h scale
  if est_w * est_h > MAX_PIXELS_PER_PAGE then
    let adj := scale * sqrtApprox ((MAX_PIXELS_PER_PAGE : ℚ) / ((est_w * est_h : ℤ) : ℚ))
    max MIN_SCALE (min adj scale)
  else
    scale

/-! ## Colorimetric transform (src/main.py lines 33-97) -/

/-- A pixel: one RGB byte triple of a `numpy` `uint8` array. -/
abbrev Pixel : Type := ℕ × ℕ × ℕ

/-- A rational 3-vector (one row of the float pixel data). -/
abbrev Vec3 : Type := ℚ × ℚ × ℚ

/-- A 3×3 matrix of rationals, by rows.  All matrix constants of the source
are exact decimal literals, hence exactly representable. -/
structure Mat3 where
  r1 : ℚ × ℚ × ℚ
  r2 : ℚ × ℚ × ℚ
  r3 : ℚ × ℚ × ℚ

/-- One row of `np.dot(v, M.T)`: the inner product of a matrix row with the
pixel vector. -/
def mulRow (r : ℚ × ℚ × ℚ) (v : Vec3) : ℚ :=
  r.1 * v.1 + r.2.1 * v.2.1 + r.2.2 * v.2.2

/-- Product `np.dot(v, M.T)` for a single pixel vector `v`. -/
def matVec (M : Mat3) (v : Vec3) : Vec3 :=
  (mulRow M.r1 v, mulRow M.r2 v, mulRow M.r3 v)

/-- The two transcendental float operations of the gamma conversions,
`x ** 2.4` (src/main.py line 35) and `x ** (1/2.4)` (line 38).  They have no
exact rational counterpart, so they are a parameter; every theorem below
holds for an arbitrary kernel. -/
structure GammaKernel where
  pow24 : ℚ → ℚ
  powInv24 : ℚ → ℚ

/-- Function `gamma_to_linear` (src/main.py lines 33-35) on a single channel byte:
`rgb = rgb / 255.0`, then
`np.where(rgb <= 0.04045, rgb / 12.92, ((rgb + 0.055) / 1.055) ** 2.4)`. -/
def gamma_to_linear (K : GammaKernel) (c : ℕ) : ℚ :=
  let x : ℚ := (c : ℚ) / 255
  if x ≤ 0.04045 then x / 12.92 else K.pow24 ((x + 0.055) / 1.055)

/-- Function `linear_to_gamma` (src/main.py lines 37-39) on a single channel value:
`np.where(rgb <= 0.0031308, 12.92 * rgb, 1.055 * rgb ** (1/2.4) - 0.055)`,
then `np.clip(gamma * 255.0, 0, 255).astype(np.uint8)`; `.astype(np.uint8)`
truncates toward zero, which on the clipped nonnegative value is the floor. -/
def linear_to_gamma (K : GammaKernel) (x : ℚ) : ℕ :=
  let gamma := if x ≤ 0.0031308 then 12.92 * x else 1.055 * K.powInv24 x - 0.055
  ⌊min (max (gamma * 255) 0) 255⌋₊

/-- The matrix of `sRGB_to_XYZ` (src/main.py lines 41-45). -/
def M_sRGB_XYZ : Mat3 :=
  ⟨(0.4124, 0.3576, 0.1805),
   (0.2126, 0.7152, 0.0722),
   (0.0193, 0.1192, 0.9505)⟩

/-- The matrix of `XYZ_to_LMS` (src/main.py lines 47-51). -/
def M_XYZ_LMS : Mat3 :=
  ⟨(0.4002, 0.7075, -0.0808),
   (-0.2263, 1.1653, 0.0457),
   (0, 0, 0.9182)⟩

/-- The matrix of `LMS_to_XYZ` (src/main.py lines 53-57). -/
def M_LMS_XYZ : Mat3 :=
  ⟨(1.8599, -1.1294, 0.2199),
   (0.3612, 0.6388, 0),
   (0, 0, 1.0891)⟩

/-- The matrix of `XYZ_to_sRGB` (src/main.py lines 59-63). -/
def M_XYZ_sRGB : Mat3 :=
  ⟨(3.2406, -1.5372, -0.4986),
   (-0.9689, 1.8758, 0.0415),
   (0.0557, -0.2040, 1.0570)⟩

/-- The protanopia cone-collapse matrix (src/main.py lines 71-73). -/
def M_protanopia : Mat3 :=
  ⟨(0, 1.208, -0.208), (0, 1, 0), (0, 0, 1)⟩

/-- The deuteranopia cone-collapse matrix (src/main.py lines 75-77). -/
def M_deuteranopia : Mat3 :=
  ⟨(1, 0, 0), (0.8278, 0, 0.1722), (0, 0, 1)⟩

/-- The tritanopia cone-collapse matrix (src/main.py lines 79-81). -/
def M_tritanopia : Mat3 :=
  ⟨(1, 0, 0), (0, 1, 0), (-0.5254, 1.5254, 0)⟩

/-- The per-pixel pipeline of `simulate_deficiency` for a recognized variant
with cone-collapse matrix `M` (src/main.py lines 66-68 and 85-88):
degamma, sRGB→XYZ, XYZ→LMS, cone collapse, LMS→XYZ, XYZ→sRGB, regamma. -/
def simulatePixel (K : GammaKernel) (M : Mat3) (p : Pixel) : Pixel :=
  let lin : Vec3 :=
    (gamma_to_linear K p.1, gamma_to_linear K p.2.1, gamma_to_linear K p.2.2)
  let xyz := matVec M_sRGB_XYZ lin
  let lms := matVec M_XYZ_LMS xyz
  let sim := matVec M lms
  let xyz2 := matVec M_LMS_XYZ sim
  let rgb2 := matVec M_XYZ_sRGB xyz2
  (linear_to_gamma K rgb2.1, linear_to_gamma K rgb2.2.1, linear_to_gamma K rgb2.2.2)

/-- Function `simulate_deficiency` (src/main.py lines 65-88).  The source computes the
linear/XYZ/LMS arrays for the whole image before branching on the variant
tag; all of that work is per-pixel, and in the unrecognized-tag branch its
results are discarded and the ORIGINAL `uint8` array `arr_rgb` is returned
unchanged (line 83: `return arr_rgb  # unknown -> no change`), so branching
first is an equivalent embedding.  The image is the flattened pixel list
(every operation of the source acts on the last axis only). -/
def simulate_deficiency (K : GammaKernel) (arr : List Pixel) (tag : String) :
    List Pixel :=
  if tag = "protanopia" then arr.map (simulatePixel K M_protanopia)
  else if tag = "deuteranopia" then arr.map (simulatePixel K M_deuteranopia)
  else if tag = "tritanopia" then arr.map (simulatePixel K M_tritanopia)
  else arr

/-- The `'Acromat'` branch of `convert_image` (src/main.py lines 92-94) on one
pixel: `gray = np.mean(arr, axis=2, keepdims=True)` followed by
`np.repeat(gray, 3, axis=2).astype(np.uint8)`.  `np.mean` sums the three
bytes exactly in float64 and divides by 3; the quotient is within one ulp of
the exact rational `(r+g+b)/3`, whose distance to the nearest integer is 0 or
at least 1/3, so truncation by `.astype(np.uint8)` yields exactly the floor
of the exact rational mean. -/
def acromatPixel (p : Pixel) : Pixel :=
  let m : ℕ := ⌊((p.1 + p.2.1 + p.2.2 : ℕ) : ℚ) / 3⌋₊
  (m, m, m)

/-- Function `convert_image` (src/main.py lines 90-97): the `'Acromat'` mode averages
the channels, every other mode is delegated to `simulate_deficiency`. -/
def convert_image (K : GammaKernel) (img : List Pixel) (mode : String) :
    List Pixel :=
  if mode = "Acromat" then img.map acromatPixel
  else simulate_deficiency K img mode

/-- From the spec's words (spec.md section 8): "Achromatopsia transform of
`(r,g,b)` yields `(m,m,m)` where `m = round((r+g+b)/3)`".  The fractional
part of `(r+g+b)/3` is never 1/2, so every rounding convention (Python's
banker's rounding included) agrees with Mathlib's `round` here. -/
def acromatSpecPixel (p : Pixel) : Pixel :=
  let m : ℕ := (round (((p.1 + p.2.1 + p.2.2 : ℕ) : ℚ) / 3)).toNat
  (m, m, m)

/-- An arbitrary concrete gamma kernel, used only to instantiate
kernel-polymorphic theorems at closed witnesses and counterexamples; none of
the statements proved below depends on the choice. -/
def someKernel : GammaKernel := ⟨fun q => q * q, fun q => q * q⟩

/-! ## Batch pipeline (src/main.py lines 147-298) -/

/-- One uploaded file, as the pipeline observes it through the external PDF
library: its untrusted `name`, whether `fitz.open` succeeds (`readable`),
whether `doc.needs_password()` holds, its `page_count`, and, for each 0-based
page index, whether the whole per-page block (load, render, preview, five
save/write steps) runs without an exception (`pageOk`).  A page on which an
exception occurs part-way is not a successfully processed page. -/
structure PDoc where
  name : String
  readable : Bool
  needsPassword : Bool
  pageCount : ℕ
  pageOk : ℕ → Bool

/-- An observable effect of the main loop: an archive entry written by
`outzip.writestr` (carrying its path), a `step += 1` progress increment, or
one of the reporting signals (`st.warning` / `st.info`). -/
inductive Event where
  | entry (path : String)
  | stepInc
  | warnPageFailed (name : String) (pageNum : ℕ)
  | warnBadExt (name : String)
  | warnUnreadable (name : String)
  | infoEncrypted (name : String)
  deriving DecidableEq

/-- Function `os.path.splitext(name)[1]` on a POSIX host: the suffix of the basename
from its last dot, where the leading dots of the basename do not count
(so `".pdf"` has no extension while `"a.pdf"` has `".pdf"`). -/
def extOf (l : List Char) : List Char :=
  let b := basename l
  let stem := b.dropWhile (fun c => c = '.')
  if stem.contains '.' then
    '.' :: (stem.reverse.takeWhile (fun c => c ≠ '.')).reverse
  else []

/-- The extension test of the main loop (src/main.py lines 184-187):
`os.path.splitext(uploaded_file.name or "")[1].lower() in ALLOWED_EXT` with
`ALLOWED_EXT = {".pdf"}`. -/
def hasAllowedExt (name : String) : Bool :=
  (extOf name.data).map Char.toLower = ['.', 'p', 'd', 'f']

/-- The archive path of one entry (src/main.py lines 241, 250, 259, 268,
277): `f"{variant_dir}/{safe_pdf_name}_p{page_num+1}.png"`. -/
def entryPath (dir name : String) (pageNum : ℕ) : String :=
  dir ++ "/" ++ name ++ "_p" ++ toString (pageNum + 1) ++ ".png"

/-- The event sequence of one successfully processed page (src/main.py lines
237-278): five `writestr` archive entries in the fixed order common,
protanopia, deuteranopia, tritanopia, achromat, each immediately followed by
its `step += 1` progress increment.  `pageNum` is the 0-based loop index; the
paths use the 1-based page number. -/
def page_events (name : String) (pageNum : ℕ) : List Event :=
  [Event.entry (entryPath "common" name pageNum), Event.stepInc,
   Event.entry (entryPath "protanopia" name pageNum), Event.stepInc,
   Event.entry (entryPath "deuteranopia" name pageNum), Event.stepInc,
   Event.entry (entryPath "tritanopia" name pageNum), Event.stepInc,
   Event.entry (entryPath "achromat" name pageNum), Event.stepInc]

/-- Count `page_count = min(doc.page_count, MAX_PAGES_PER_FILE)` (src/main.py
line 206), the number of pages the loop visits. -/
def usable_pages (d : PDoc) : ℕ := min d.pageCount MAX_PAGES_PER_FILE

/-- The events contributed by one page of the loop (src/main.py lines
215-286): the five entry/progress pairs on success, the
`st.warning(f"ページ {page_num+1} の処理に失敗...")` signal when the page's
`try` block raises (lines 284-286). -/
def pageBlock (d : PDoc) (i : ℕ) : List Event :=
  if d.pageOk i then page_events (sanitize_filename d.name) i
  else [Event.warnPageFailed (sanitize_filename d.name) (i + 1)]

/-- The events of the per-page loop of one admitted, readable, unencrypted
document (src/main.py lines 215-286). -/
def doc_events (d : PDoc) : List Event :=
  ((List.range (usable_pages d)).map (pageBlock d)).flatten

/-- The number of events preceding page `i`'s block inside `doc_events`. -/
def pageOffset (d : PDoc) (i : ℕ) : ℕ :=
  (((List.range i).map (pageBlock d)).map List.length).sum

/-- The contribution of one uploaded file to the pre-pass total (src/main.py
lines 162-173): an unopenable document is skipped by the `except` branch, an
encrypted one by the `needs_password` branch, and every other one contributes
`min(doc.page_count, MAX_PAGES_PER_FILE) * 5`. -/
def docSteps (d : PDoc) : ℕ :=
  if d.readable = false then 0
  else if d.needsPassword then 0
  else min d.pageCount MAX_PAGES_PER_FILE * 5

/-- The pre-pass `total_steps` accumulation (src/main.py lines 160-173). -/
def total_steps (docs : List PDoc) : ℕ := (docs.map docSteps).sum

/-- From the spec's words (spec.md section 4.3): "`total_steps = Σ
usable_page_count(doc) × 5`" over the openable, non-encrypted documents. -/
def total_steps_spec (docs : List PDoc) : ℕ :=
  ((docs.filter (fun d => d.readable && !d.needsPassword)).map
    (fun d => min d.pageCount MAX_PAGES_PER_FILE * 5)).sum

/-- The batch admission step (src/main.py lines 152-154): when more than
`MAX_FILES` files are uploaded, ONE `st.warning` is emitted and the list is
truncated to its first `MAX_FILES` elements.  The second component counts
the warnings emitted by this step. -/
def admit_batch (files : List PDoc) : List PDoc × ℕ :=
  if files.length > MAX_FILES then (files.take MAX_FILES, 1) else (files, 0)

/-- The events of one document of the main loop (src/main.py lines 182-294):
extension check, open (`readable`), password check, then the page loop. -/
def doc_main_events (d : PDoc) : List Event :=
  if hasAllowedExt d.name = false then [Event.warnBadExt d.name]
  else if d.readable = false then [Event.warnUnreadable d.name]
  else if d.needsPassword then [Event.infoEncrypted d.name]
  else doc_events d

/-- The outcome of one press of the process button: `empty` models the
`st.stop()` after the "処理可能なPDFがありません" warning (src/main.py lines
174-176) — the run aborts with no archive entries and no download button —
and `done` carries the event trace of the full main loop. -/
inductive BatchResult where
  | empty
  | done (events : List Event)
  deriving DecidableEq

/-- The batch run (src/main.py lines 147-307): admission truncation, the
total-step pre-pass with its empty-batch abort, then the main loop over the
admitted files. -/
def run_batch (files : List PDoc) : BatchResult :=
  let admitted := (admit_batch files).1
  if total_steps admitted = 0 then BatchResult.empty
  else BatchResult.done ((admitted.map doc_main_events).flatten)

/-! ## Helper lemmas about the sanitizer -/

/-- Every character emitted by `subAux` is in the allowed class (it is either
an allowed input character or the replacement `'_'`). -/
theorem subAux_allowed : ∀ (b : Bool) (l : List Char),
    ∀ c ∈ subAux b l, isAllowedChar c = true := by
  intro b l
  induction l generalizing b with
  | nil => intro c hc; simp [subAux] at hc
  | cons x xs ih =>
    intro c hc
    by_cases hx : isAllowedChar x = true
    · simp only [subAux, if_pos hx] at hc
      rcases List.mem_cons.mp hc with rfl | hc
      · exact hx
      · exact ih false c hc
    · simp only [subAux, if_neg hx] at hc
      cases b with
      | true => exact ih true c (by simpa using hc)
      | false =>
        simp only [Bool.false_eq_true, if_false] at hc
        rcases List.mem_cons.mp hc with rfl | hc
        · decide
        · exact ih true c hc

/-- On a string that is entirely inside the allowed class, `subAux` is the
identity. -/
theorem subAux_of_allowed : ∀ (b : Bool) (l : List Char),
    (∀ c ∈ l, isAllowedChar c = true) → subAux b l = l := by
  intro b l
  induction l generalizing b with
  | nil => intro _; rfl
  | cons x xs ih =>
    intro h
    have hx : isAllowedChar x = true := h x (by simp)
    simp only [subAux, if_pos hx]
    exact congrArg (x :: ·) (ih false fun c hc => h c (by simp [hc]))

/-- Appending the literal `.pdf` makes `lowerEndsWithPdf` true. -/
theorem lowerEndsWithPdf_append (l : List Char) :
    lowerEndsWithPdf (l ++ ['.', 'p', 'd', 'f']) = true := by
  simp only [lowerEndsWithPdf, List.reverse_append]
  rfl

/-- Every character of a sanitized name is in the allowed class. -/
theorem sanitize_allowed (s : String) :
    ∀ c ∈ (sanitize_filename s).data, isAllowedChar c = true := by
  intro c hc
  unfold sanitize_filename at hc
  set base := subDisallowed (basename (if s = "" then "file" else s).data) with hbase
  by_cases hend : lowerEndsWithPdf base = true
  · rw [if_pos hend] at hc
    exact subAux_allowed false _ c hc
  · rw [if_neg hend] at hc
    have hc : c ∈ base ++ ['.', 'p', 'd', 'f'] := hc
    rcases List.mem_append.mp hc with h | h
    · exact subAux_allowed false _ c h
    · simp only [List.mem_cons, List.not_mem_nil, or_false] at h
      rcases h with rfl | rfl | rfl | rfl <;> decide

/-- A sanitized name always ends, case-insensitively, with `.pdf`. -/
theorem sanitize_lowerEnds (s : String) :
    lowerEndsWithPdf (sanitize_filename s).data = true := by
  unfold sanitize_filename
  set base := subDisallowed (basename (if s = "" then "file" else s).data) with hbase
  by_cases hend : lowerEndsWithPdf base = true
  · rw [if_pos hend]; exact hend
  · rw [if_neg hend]; exact lowerEndsWithPdf_append base

/-- A list whose characters are all in the allowed class contains no `'/'`. -/
theorem no_slash_of_allowed (l : List Char)
    (h : ∀ c ∈ l, isAllowedChar c = true) : l.contains '/' = false := by
  induction l with
  | nil => rfl
  | cons x xs ih =>
    have hx : isAllowedChar x = true := h x (by simp)
    have hxs := ih fun c hc => h c (by simp [hc])
    have hne : ('/' == x) = false := by
      cases heq : ('/' == x)
      · rfl
      · exact absurd hx (by rw [show x = '/' from (beq_iff_eq.mp heq).symm]; decide)
    simp only [List.contains_cons, hne, hxs, Bool.or_self]

/-- A list ending (case-insensitively) in `.pdf` is nonempty. -/
theorem ne_nil_of_lowerEnds (l : List Char) (h : lowerEndsWithPdf l = true) :
    l ≠ [] := by
  intro hnil
  rw [hnil] at h
  exact absurd h (by decide)

/-- The prefix-closure step of `basename`: a list without `'/'` is its own
basename. -/
theorem basename_of_no_slash (l : List Char) (h : ∀ c ∈ l, c ≠ '/') :
    basename l = l := by
  unfold basename
  have : l.reverse.takeWhile (fun c => c ≠ '/') = l.reverse := by
    rw [List.takeWhile_eq_self_iff]
    intro c hc
    simpa using h c (List.mem_reverse.mp hc)
  rw [this, List.reverse_reverse]

/-! ## Claim theorems -/

/-- C3, counterexample: the input `"/"` (a bare path separator) sanitizes to
`".pdf"`, whose stem is empty, so the output does NOT match the claimed
pattern `^[A-Za-z0-9._-]+\.pdf$`. -/
theorem sanitize_filename_pat_cex :
    sanitize_filename "/" = ".pdf" ∧
    matchesSanitizedPat (sanitize_filename "/") = false := by
  exact ⟨by decide, by decide⟩

/-- C3 (amended): for every input string, every character of
`sanitize_filename`'s output is in the class `[A-Za-z0-9._-]`, the output
ends case-insensitively with `.pdf`, and it contains no path separator; the
stem may be empty and an upper-case `.PDF` suffix is kept, so the stricter
pattern `^[A-Za-z0-9._-]+\.pdf$` of the claim can fail. -/
theorem sanitize_filename_safe_shape (s : String) :
    (sanitize_filename s).data.all isAllowedChar = true ∧
    lowerEndsWithPdf (sanitize_filename s).data = true ∧
    (sanitize_filename s).data.contains '/' = false := by
  refine ⟨?_, sanitize_lowerEnds s, no_slash_of_allowed _ (sanitize_allowed s)⟩
  rw [List.all_eq_true]
  exact fun c hc => sanitize_allowed s c hc

/-- C10: `sanitize_filename` is idempotent — re-sanitizing an already
sanitized name never changes it. -/
theorem sanitize_filename_idem (s : String) :
    sanitize_filename (sanitize_filename s) = sanitize_filename s := by
  set t := sanitize_filename s with ht
  have hall : ∀ c ∈ t.data, isAllowedChar c = true := sanitize_allowed s
  have hend : lowerEndsWithPdf t.data = true := sanitize_lowerEnds s
  have hne : t ≠ "" := by
    intro hempty
    refine ne_nil_of_lowerEnds t.data hend ?_
    rw [hempty]
  have hb : basename t.data = t.data :=
    basename_of_no_slash _ fun c hc heq =>
      absurd (hall c hc) (by rw [heq]; decide)
  have hsub : subDisallowed t.data = t.data := subAux_of_allowed false _ hall
  simp only [sanitize_filename]
  rw [if_neg hne, hb, hsub, if_pos hend]

/-- C9: `clamp_scale` is total — a convertible input is clamped into
`[MIN_SCALE, MAX_SCALE] = [0.1, 1.0]` by `max(MIN_SCALE, min(MAX_SCALE, x))`,
and an input whose `float()` conversion raises yields exactly `1.0`. -/
theorem clamp_scale_total (x : ℚ) :
    clamp_scale (some x) = max MIN_SCALE (min MAX_SCALE x) ∧
    MIN_SCALE ≤ clamp_scale (some x) ∧
    clamp_scale (some x) ≤ MAX_SCALE ∧
    clamp_scale none = 1 := by
  refine ⟨rfl, le_max_left _ _, ?_, rfl⟩
  exact max_le (by norm_num [MIN_SCALE, MAX_SCALE]) (min_le_left _ _)

/-- C4: for every page size, every requested scale in
`[MIN_SCALE, MAX_SCALE]`, and every value of the floating-point square root,
the effective scale lies in `[MIN_SCALE, requested_scale]`; in particular the
pixel-ceiling step never increases the scale. -/
theorem resolve_scale_bounds (sq : ℚ → ℚ) (w h scale : ℚ)
    (hlo : MIN_SCALE ≤ scale) (_hhi : scale ≤ MAX_SCALE) :
    MIN_SCALE ≤ resolve_scale sq w h scale ∧
    resolve_scale sq w h scale ≤ scale := by
  simp only [resolve_scale]
  split
  · exact ⟨le_max_left _ _, max_le hlo (min_le_right _ _)⟩
  · exact ⟨hlo, le_refl scale⟩

/-- Witness for C4 at a page so large that the reduction branch runs. -/
theorem resolve_scale_bounds_witness :
    MIN_SCALE ≤ (1 : ℚ) ∧ (1 : ℚ) ≤ MAX_SCALE ∧
    (MIN_SCALE ≤ resolve_scale (fun q => q) 1000000 1000000 1 ∧
     resolve_scale (fun q => q) 1000000 1000000 1 ≤ 1) :=
  ⟨by norm_num [MIN_SCALE], by norm_num [MAX_SCALE],
   resolve_scale_bounds (fun q => q) 1000000 1000000 1
     (by norm_num [MIN_SCALE]) (by norm_num [MAX_SCALE])⟩

/-- Bridging `int()`-truncation and the claim's `floor`: after `max 1`, they
agree (a negative product truncates and floors to a nonpositive value, which
`max 1` absorbs either way). -/
theorem max_one_pyInt (q : ℚ) : max 1 (pyInt q) = max 1 ⌊q⌋ := by
  unfold pyInt
  split
  · rfl
  · rename_i hq
    have hq' : q ≤ 0 := le_of_lt (lt_of_not_ge hq)
    have h1 : ⌈q⌉ ≤ 0 := Int.ceil_le.mpr (by exact_mod_cast hq')
    have h2 : ⌊q⌋ ≤ 0 := Int.floor_nonpos hq'
    omega

/-- C5: scale resolution is the identity on admissible pages — whenever
`est_w · est_h ≤ MAX_PIXELS_PER_PAGE` (with the claim's
`est = max(1, floor(dim · scale))`), the effective scale is exactly the
requested scale. -/
theorem resolve_scale_id_admissible (sq : ℚ → ℚ) (w h scale : ℚ)
    (hadm : max 1 ⌊w * scale⌋ * max 1 ⌊h * scale⌋ ≤ MAX_PIXELS_PER_PAGE) :
    resolve_scale sq w h scale = scale := by
  simp only [resolve_scale]
  rw [if_neg]
  rw [not_lt]
  show MAX_PIXELS_PER_PAGE ≥ estDim w scale * estDim h scale
  unfold estDim
  rw [max_one_pyInt, max_one_pyInt]
  exact hadm

/-- Witness for C5 at an admissible page. -/
theorem resolve_scale_id_admissible_witness :
    max 1 ⌊(100 : ℚ) * 1⌋ * max 1 ⌊(100 : ℚ) * 1⌋ ≤ MAX_PIXELS_PER_PAGE ∧
    resolve_scale (fun q => q) 100 100 1 = 1 :=
  ⟨by norm_num [MAX_PIXELS_PER_PAGE],
   resolve_scale_id_admissible (fun q => q) 100 100 1
     (by norm_num [MAX_PIXELS_PER_PAGE])⟩

/-- Rational floor of a natural number divided by 3 is natural division. -/
theorem nat_floor_div_three (a : ℕ) : ⌊((a : ℕ) : ℚ) / 3⌋₊ = a / 3 := by
  rw [show (3 : ℚ) = ((3 : ℕ) : ℚ) by norm_num, Nat.floor_div_nat,
    Nat.floor_natCast]

/-- C1, counterexample: on the byte triple `(0,0,2)` the code's achromatopsia
transform yields `(0,0,0)` (the float mean `2/3` is truncated by
`astype(np.uint8)`), while the claimed `m = round((r+g+b)/3)` is `1`. -/
theorem convert_image_acromat_cex :
    convert_image someKernel [((0 : ℕ), (0 : ℕ), (2 : ℕ))] "Acromat" =
      [(0, 0, 0)] ∧
    acromatSpecPixel (0, 0, 2) = (1, 1, 1) ∧
    convert_image someKernel [((0 : ℕ), (0 : ℕ), (2 : ℕ))] "Acromat" ≠
      [acromatSpecPixel (0, 0, 2)] := by
  have h0 : ⌊(2 : ℚ) / 3⌋₊ = 0 := by norm_num
  have h1 : round ((2 : ℚ) / 3) = 1 := by rw [round_eq]; norm_num
  refine ⟨?_, ?_, ?_⟩ <;>
    simp [convert_image, acromatPixel, acromatSpecPixel, h0, h1]

/-- C1 (amended): the achromatopsia transform maps every pixel `(r,g,b)`
independently to `(m,m,m)` with `m = floor((r+g+b)/3)` (truncation, not
rounding). -/
theorem convert_image_acromat_floor (K : GammaKernel) (img : List Pixel) :
    convert_image K img "Acromat" =
      img.map (fun p =>
        ((p.1 + p.2.1 + p.2.2) / 3, (p.1 + p.2.1 + p.2.2) / 3,
         (p.1 + p.2.1 + p.2.2) / 3)) := by
  unfold convert_image
  rw [if_pos rfl]
  refine List.map_congr_left fun p _ => ?_
  simp only [acromatPixel, nat_floor_div_three]

/-- C2, counterexample: the tag `"unknown"` is outside
`{protanopia, deuteranopia, tritanopia}`, yet `simulate_deficiency` silently
returns its input buffer unchanged (src/main.py line 83), contradicting the
claimed fail-fast contract. -/
theorem simulate_deficiency_unknown_cex :
    ¬(("unknown" : String) = "protanopia" ∨
      ("unknown" : String) = "deuteranopia" ∨
      ("unknown" : String) = "tritanopia") ∧
    simulate_deficiency someKernel [((10 : ℕ), (20 : ℕ), (30 : ℕ))] "unknown" =
      [(10, 20, 30)] := by
  exact ⟨by decide, by decide⟩

/-- C2 (amended): for every gamma kernel, every buffer and every tag outside
the three recognized variants, `simulate_deficiency` returns the input
unchanged — the unrecognized-variant fallback is a silent pass-through, not a
failure. -/
theorem simulate_deficiency_unknown_id (K : GammaKernel) (arr : List Pixel)
    (tag : String) (h1 : tag ≠ "protanopia") (h2 : tag ≠ "deuteranopia")
    (h3 : tag ≠ "tritanopia") :
    simulate_deficiency K arr tag = arr := by
  unfold simulate_deficiency
  rw [if_neg h1, if_neg h2, if_neg h3]

/-- Witness for C2's amended theorem at a concrete unknown tag. -/
theorem simulate_deficiency_unknown_id_witness :
    ("x" : String) ≠ "protanopia" ∧ ("x" : String) ≠ "deuteranopia" ∧
    ("x" : String) ≠ "tritanopia" ∧
    simulate_deficiency someKernel [((1 : ℕ), (2 : ℕ), (3 : ℕ))] "x" =
      [(1, 2, 3)] :=
  ⟨by decide, by decide, by decide,
   simulate_deficiency_unknown_id someKernel [(1, 2, 3)] "x"
     (by decide) (by decide) (by decide)⟩

/-- Splitting a flattened range-map at one index: the blocks before `i`, the
block of `i`, and some rest. -/
theorem flatten_split {α : Type} (f : ℕ → List α) :
    ∀ n i, i < n → ∃ rest, ((List.range n).map f).flatten =
      ((List.range i).map f).flatten ++ (f i ++ rest) := by
  intro n
  induction n with
  | zero => intro i hi; exact absurd hi (Nat.not_lt_zero i)
  | succ n ih =>
    intro i hi
    rcases Nat.lt_succ_iff_lt_or_eq.mp hi with h | rfl
    · obtain ⟨rest, hrest⟩ := ih i h
      refine ⟨rest ++ f n, ?_⟩
      rw [List.range_succ, List.map_append, List.flatten_append, hrest]
      simp [List.append_assoc]
    · refine ⟨[], ?_⟩
      rw [List.range_succ, List.map_append, List.flatten_append]
      simp

/-- C6: the pre-pass total equals the spec's sum over openable, non-encrypted
documents of `min(page_count, MAX_PAGES_PER_FILE) * 5`, and a batch whose
admitted documents yield zero steps aborts with no archive entries and no
downloadable output. -/
theorem total_steps_spec_and_empty (docs : List PDoc) :
    total_steps docs = total_steps_spec docs ∧
    (total_steps (admit_batch docs).1 = 0 →
      run_batch docs = BatchResult.empty) := by
  constructor
  · induction docs with
    | nil => rfl
    | cons d ds ih =>
      simp only [total_steps, total_steps_spec, List.map_cons, List.sum_cons,
        List.filter_cons] at *
      by_cases hr : d.readable = true
      · by_cases hp : d.needsPassword = true
        · simp [docSteps, hr, hp, ih]
        · simp [docSteps, hr, hp, ih]
      · have hr' : d.readable = false := by simpa using hr
        simp [docSteps, hr', ih]
  · intro h
    simp only [run_batch]
    rw [if_pos h]

/-- A sample processable two-page document for closed witnesses. -/
def sampleDoc : PDoc := ⟨"doc.pdf", true, false, 2, fun _ => true⟩

/-- A sample encrypted document for closed witnesses. -/
def encDoc : PDoc := ⟨"enc.pdf", true, true, 3, fun _ => true⟩

/-- Witness for C6: a batch holding only an encrypted document has zero total
steps and aborts with no output. -/
theorem total_steps_spec_and_empty_witness :
    total_steps (admit_batch [encDoc]).1 = 0 ∧
    run_batch [encDoc] = BatchResult.empty :=
  ⟨by decide, (total_steps_spec_and_empty [encDoc]).2 (by decide)⟩

/-- C7: for every successfully processed page, the loop appends exactly the
five archive entries in the fixed order common, protanopia, deuteranopia,
tritanopia, achromat, at paths `{dir}/{sanitized}_p{1-based page}.png`, each
immediately followed by exactly one progress increment. -/
theorem five_entries_per_page (d : PDoc) (i : ℕ)
    (hi : i < usable_pages d) (hok : d.pageOk i = true) :
    ((doc_events d).drop (pageOffset d i)).take 10 =
      [Event.entry (entryPath "common" (sanitize_filename d.name) i),
       Event.stepInc,
       Event.entry (entryPath "protanopia" (sanitize_filename d.name) i),
       Event.stepInc,
       Event.entry (entryPath "deuteranopia" (sanitize_filename d.name) i),
       Event.stepInc,
       Event.entry (entryPath "tritanopia" (sanitize_filename d.name) i),
       Event.stepInc,
       Event.entry (entryPath "achromat" (sanitize_filename d.name) i),
       Event.stepInc] := by
  obtain ⟨rest, hsplit⟩ := flatten_split (pageBlock d) (usable_pages d) i hi
  unfold doc_events
  rw [hsplit]
  have hoff : pageOffset d i =
      (((List.range i).map (pageBlock d)).flatten).length := by
    rw [List.length_flatten]
    rfl
  rw [hoff, List.drop_left]
  have hblock : pageBlock d i = page_events (sanitize_filename d.name) i := by
    rw [pageBlock, if_pos hok]
  rw [hblock]
  have hlen : (page_events (sanitize_filename d.name) i).length = 10 := rfl
  rw [← hlen, List.take_left]
  rfl

/-- Witness for C7 on a concrete two-page document, page 0. -/
theorem five_entries_per_page_witness :
    0 < usable_pages sampleDoc ∧ sampleDoc.pageOk 0 = true ∧
    ((doc_events sampleDoc).drop (pageOffset sampleDoc 0)).take 10 =
      [Event.entry (entryPath "common" (sanitize_filename sampleDoc.name) 0),
       Event.stepInc,
       Event.entry
         (entryPath "protanopia" (sanitize_filename sampleDoc.name) 0),
       Event.stepInc,
       Event.entry
         (entryPath "deuteranopia" (sanitize_filename sampleDoc.name) 0),
       Event.stepInc,
       Event.entry
         (entryPath "tritanopia" (sanitize_filename sampleDoc.name) 0),
       Event.stepInc,
       Event.entry
         (entryPath "achromat" (sanitize_filename sampleDoc.name) 0),
       Event.stepInc] :=
  ⟨by decide, rfl, five_entries_per_page sampleDoc 0 (by decide) rfl⟩

set_option maxRecDepth 4000 in
/-- C8, counterexample: with 202 uploaded files, two items are dropped but
the truncation step emits exactly ONE aggregate warning (src/main.py line
153), not one warning per dropped item. -/
theorem admit_batch_warning_cex :
    (List.replicate 202 sampleDoc).length - MAX_FILES = 2 ∧
    (admit_batch (List.replicate 202 sampleDoc)).2 = 1 ∧
    (admit_batch (List.replicate 202 sampleDoc)).2 ≠
      (List.replicate 202 sampleDoc).length - MAX_FILES := by
  exact ⟨by decide, by decide, by decide⟩

/-- C8 (amended): an over-long upload list is truncated to exactly its first
`MAX_FILES` elements in original order, and the truncation emits exactly one
aggregate warning (a warning, not an error). -/
theorem admit_batch_truncates (files : List PDoc)
    (h : MAX_FILES < files.length) :
    (admit_batch files).1 = files.take MAX_FILES ∧
    (admit_batch files).2 = 1 := by
  simp only [admit_batch]
  rw [if_pos h]
  exact ⟨rfl, rfl⟩

set_option maxRecDepth 4000 in
/-- Witness for C8's amended theorem at a 201-element batch. -/
theorem admit_batch_truncates_witness :
    MAX_FILES < (List.replicate 201 sampleDoc).length ∧
    ((admit_batch (List.replicate 201 sampleDoc)).1 =
        (List.replicate 201 sampleDoc).take MAX_FILES ∧
      (admit_batch (List.replicate 201 sampleDoc)).2 = 1) :=
  ⟨by decide, admit_batch_truncates (List.replicate 201 sampleDoc) (by decide)⟩
